import Mathlib

/-!
Verification of the `redux-actionflow` middleware (`src/actionFlow.js`).

The middleware is a single function:

```js
function actionFlow () {
  return (next) => (action) => {
    const { promise, types, ...rest } = action
    if (!promise) {
      return next(action)
    }
    const [REQUEST, SUCCESS, FAILURE] = types
    next({ ...rest, type: REQUEST })
    return promise.then(
      (value) => next({ ...rest, value, type: SUCCESS }),
      (error) => {
        next({ ...rest, error, type: FAILURE })
        throw error
      }
    )
  }
}
```

We shallowly embed the JavaScript values and the whole run of one middleware
call (the synchronous phase plus the continuation attached to the promise) as
pure Lean functions, and prove the specified properties about them.
-/

/-- A JavaScript value, as far as this middleware can observe one.
A promise is modelled by its eventual settlement: `promise true v` is a
promise that fulfills with `v`, `promise false e` one that rejects with `e`. -/
inductive JSVal where
  | undef
  | null
  | bool (b : Bool)
  | num (n : Int)
  | str (s : String)
  | arr (elems : List JSVal)
  | obj (fields : List (String × JSVal))
  | promise (fulfilled : Bool) (payload : JSVal)

/-- A JavaScript object as the middleware manipulates it: an ordered list of
(key, value) entries. JavaScript objects never hold a key twice. -/
abbrev Obj := List (String × JSVal)

/-- JavaScript truthiness: `undefined`, `null`, `false`, `0` and the empty
string are falsy; every object (arrays and promises included) is truthy.
The model has no NaN: numbers are integers. -/
def JSVal.truthy : JSVal → Bool
  | .undef => false
  | .null => false
  | .bool b => b
  | .num n => n ≠ 0
  | .str s => s ≠ ""
  | .arr _ => true
  | .obj _ => true
  | .promise _ _ => true

/-- Is the value a promise? -/
def JSVal.isPromise : JSVal → Bool
  | .promise _ _ => true
  | _ => false

/-- Property read `o.k`: the value at key `k`, `undefined` when absent.
This is what object destructuring binds for a named field. -/
def getField : Obj → String → JSVal
  | [], _ => JSVal.undef
  | (k2, v) :: t, k => if k2 = k then v else getField t k

/-- Does the object carry key `k` at all (even with value `undefined`)? -/
def hasField : Obj → String → Bool
  | [], _ => false
  | (k2, _) :: t, k => if k2 = k then true else hasField t k

/-- Property write: `{ ...o, k: v }` for a duplicate-free `o` — replace the
value at `k` in place if the key exists, otherwise append the key last. -/
def setField : Obj → String → JSVal → Obj
  | [], k, v => [(k, v)]
  | (k2, w) :: t, k, v => if k2 = k then (k2, v) :: t else (k2, w) :: setField t k v

/-- The `rest` of `const { promise, types, ...rest } = action`: every entry
of the action whose key is neither `promise` nor `types`, in order. -/
def restOf : Obj → Obj
  | [] => []
  | (k, v) :: t => if k = "promise" ∨ k = "types" then restOf t else (k, v) :: restOf t

/-- The only error the middleware itself can raise. -/
inductive JSError where
  | typeError
deriving DecidableEq, Repr

/-- Array destructuring `const [a, b, c] = x`.  Arrays yield their first
three elements, positions past the end binding `undefined`; strings are
iterable and yield their characters; every other value (in particular
`undefined` when the `types` field is absent) raises a `TypeError`. -/
def destructure3 : JSVal → Except JSError (JSVal × JSVal × JSVal)
  | .arr xs =>
      .ok (xs.getD 0 JSVal.undef, xs.getD 1 JSVal.undef, xs.getD 2 JSVal.undef)
  | .str s =>
      let cs := s.data.map (fun c => JSVal.str (String.mk [c]))
      .ok (cs.getD 0 JSVal.undef, cs.getD 1 JSVal.undef, cs.getD 2 JSVal.undef)
  | _ => .error JSError.typeError

/-- What one middleware call yields to its caller. -/
inductive Outcome where
  /-- A plain (non-promise) return value: the pass-through branch returns
  `next(action)` directly. -/
  | value (v : JSVal)
  /-- The returned promise fulfills with `v`. -/
  | promiseF (v : JSVal)
  /-- The returned promise rejects with reason `e`. -/
  | promiseR (e : JSVal)
  /-- The call raises synchronously. -/
  | syncThrow (err : JSError)

/-- Promise resolution: a `.then` handler that returns a value resolves the
derived promise with it — adopting it when it is itself a promise. -/
def resolveOutcome : JSVal → Outcome
  | .promise true v => resolveOutcome v
  | .promise false e => Outcome.promiseR e
  | .undef => Outcome.promiseF JSVal.undef
  | .null => Outcome.promiseF JSVal.null
  | .bool b => Outcome.promiseF (JSVal.bool b)
  | .num n => Outcome.promiseF (JSVal.num n)
  | .str s => Outcome.promiseF (JSVal.str s)
  | .arr xs => Outcome.promiseF (JSVal.arr xs)
  | .obj fs => Outcome.promiseF (JSVal.obj fs)

/-- `{ ...rest, type: REQUEST }` for a given action. -/
def requestAction (a : Obj) (rq : JSVal) : Obj :=
  setField (restOf a) "type" rq

/-- `{ ...rest, value, type: SUCCESS }` for a given action and resolved value. -/
def successAction (a : Obj) (sc v : JSVal) : Obj :=
  setField (setField (restOf a) "value" v) "type" sc

/-- `{ ...rest, error, type: FAILURE }` for a given action and rejection reason. -/
def failureAction (a : Obj) (fl e : JSVal) : Obj :=
  setField (setField (restOf a) "error" e) "type" fl

/-- The complete observable run of one middleware call:
the actions passed to `next` before the call returns, the actions passed to
`next` later when the promise settles, and what the call yields. -/
structure Run where
  syncDispatches : List Obj
  asyncDispatches : List Obj
  outcome : Outcome

/-- The middleware `(next) => (action) => ...` of `src/actionFlow.js`,
evaluated to completion (promise settlement included).

- `const { promise, types, ...rest } = action` binds the two named fields
  (`undefined` when absent) and the remaining entries;
- `if (!promise) return next(action)` forwards a falsy-`promise` action
  unchanged and returns the host pipeline result for it;
- `const [REQUEST, SUCCESS, FAILURE] = types` raises a `TypeError` when
  `types` is not iterable (in particular when absent), before any dispatch;
- otherwise `next({ ...rest, type: REQUEST })` is dispatched synchronously
  and `promise.then(onValue, onError)` is returned: on fulfillment the
  success action is dispatched and the returned promise resolves with the
  handler result `next(successAction)`; on rejection the failure action is
  dispatched and the handler re-throws, so the returned promise rejects
  with the original reason. A truthy non-promise `promise` field makes
  `promise.then` itself raise a `TypeError` (after the request dispatch). -/
def actionFlow (next : Obj → JSVal) (action : Obj) : Run :=
  let promise := getField action "promise"
  if !promise.truthy then
    { syncDispatches := [action], asyncDispatches := [],
      outcome := Outcome.value (next action) }
  else
    match destructure3 (getField action "types") with
    | .error err => { syncDispatches := [], asyncDispatches := [],
                      outcome := Outcome.syncThrow err }
    | .ok (rq, sc, fl) =>
      match promise with
      | JSVal.promise true v =>
          { syncDispatches := [requestAction action rq],
            asyncDispatches := [successAction action sc v],
            outcome := resolveOutcome (next (successAction action sc v)) }
      | JSVal.promise false e =>
          { syncDispatches := [requestAction action rq],
            asyncDispatches := [failureAction action fl e],
            outcome := Outcome.promiseR e }
      | _ =>
          { syncDispatches := [requestAction action rq],
            asyncDispatches := [],
            outcome := Outcome.syncThrow JSError.typeError }

/-- A `next` that returns `undefined`, as a stand-in host pipeline for
concrete evaluations. -/
def cNext : Obj → JSVal := fun _ => JSVal.undef

/-! ### Concrete inputs used to evaluate the theorems -/

/-- The fulfillment example of the spec:
`{types: [FETCH_START,FETCH_OK,FETCH_ERR], promise: Promise.resolve(42)}`. -/
def exampleOk : Obj :=
  [("types", JSVal.arr [JSVal.str "FETCH_START", JSVal.str "FETCH_OK", JSVal.str "FETCH_ERR"]),
   ("promise", JSVal.promise true (JSVal.num 42))]

/-- The rejection example of the spec, with `Promise.reject(boom)`. -/
def exampleErr : Obj :=
  [("types", JSVal.arr [JSVal.str "FETCH_START", JSVal.str "FETCH_OK", JSVal.str "FETCH_ERR"]),
   ("promise", JSVal.promise false (JSVal.str "boom"))]

/-- A flow action carrying an extra caller-defined field `id`. -/
def flowWithId : Obj :=
  [("promise", JSVal.promise true (JSVal.num 7)),
   ("types", JSVal.arr [JSVal.str "REQ", JSVal.str "OK", JSVal.str "ERR"]),
   ("id", JSVal.num 5)]

/-- A flow action whose caller-defined `type` field collides with the tag
slot of the derived actions. -/
def collideReq : Obj :=
  [("type", JSVal.str "LOCAL"),
   ("promise", JSVal.promise true (JSVal.num 1)),
   ("types", JSVal.arr [JSVal.str "REQ", JSVal.str "OK", JSVal.str "ERR"])]

/-- Another flow action with a caller-defined `type` field. -/
def collideType : Obj :=
  [("type", JSVal.str "KEEP"),
   ("promise", JSVal.promise true (JSVal.num 3)),
   ("types", JSVal.arr [JSVal.str "Q", JSVal.str "S", JSVal.str "F"])]

/-- A flow action whose `types` array has a single element. -/
def shortTypesAction : Obj :=
  [("promise", JSVal.promise true (JSVal.num 8)),
   ("types", JSVal.arr [JSVal.str "ONLY"])]

/-- A host pipeline whose result is observable: it returns the string
`HANDLED` for every action. -/
def next9 : Obj → JSVal := fun _ => JSVal.str "HANDLED"

/-! ### Basic lemmas about the object operations -/

theorem getField_eq_undef_of_not_hasField (o : Obj) (k : String)
    (h : hasField o k = false) : getField o k = JSVal.undef := by
  induction o with
  | nil => rfl
  | cons p t ih =>
    obtain ⟨k2, v⟩ := p
    by_cases hk : k2 = k
    · simp [hasField, hk] at h
    · simp only [hasField, hk, if_false] at h
      simp [getField, hk, ih h]

theorem getField_setField_self (o : Obj) (k : String) (v : JSVal) :
    getField (setField o k v) k = v := by
  induction o with
  | nil => simp [setField, getField]
  | cons p t ih =>
    obtain ⟨k2, w⟩ := p
    by_cases hk : k2 = k <;> simp [setField, getField, hk, ih]

theorem getField_setField_ne (o : Obj) (k k2 : String) (v : JSVal) (h : k2 ≠ k) :
    getField (setField o k2 v) k = getField o k := by
  induction o with
  | nil => simp [setField, getField, h]
  | cons p t ih =>
    obtain ⟨k3, w⟩ := p
    by_cases hk : k3 = k2
    · subst hk
      simp [setField, getField, h]
    · simp [setField, getField, hk, ih]

theorem hasField_setField_ne (o : Obj) (k k2 : String) (v : JSVal) (h : k2 ≠ k) :
    hasField (setField o k2 v) k = hasField o k := by
  induction o with
  | nil => simp [setField, hasField, h]
  | cons p t ih =>
    obtain ⟨k3, w⟩ := p
    by_cases hk : k3 = k2
    · subst hk
      simp [setField, hasField, h]
    · simp [setField, hasField, hk, ih]

theorem getField_restOf (a : Obj) (k : String)
    (h1 : k ≠ "promise") (h2 : k ≠ "types") :
    getField (restOf a) k = getField a k := by
  induction a with
  | nil => rfl
  | cons p t ih =>
    obtain ⟨k2, v⟩ := p
    by_cases hk : k2 = "promise" ∨ k2 = "types"
    · have hne : k2 ≠ k := by
        rcases hk with hk | hk <;> subst hk
        · exact fun hc => h1 hc.symm
        · exact fun hc => h2 hc.symm
      simp [restOf, hk, getField, hne, ih]
    · simp [restOf, hk, getField, ih]

theorem hasField_restOf_eq_false (a : Obj) (k : String)
    (h : k = "promise" ∨ k = "types") :
    hasField (restOf a) k = false := by
  induction a with
  | nil => rfl
  | cons p t ih =>
    obtain ⟨k2, v⟩ := p
    by_cases hk : k2 = "promise" ∨ k2 = "types"
    · simp [restOf, hk, ih]
    · have hne : k2 ≠ k := by
        rcases h with h | h <;> subst h
        · exact fun hc => hk (Or.inl hc)
        · exact fun hc => hk (Or.inr hc)
      simp [restOf, hk, hasField, hne, ih]

/-! ### Evaluating the middleware on each branch -/

/-- Pass-through branch: a falsy `promise` field takes the early return. -/
theorem actionFlow_falsy (next : Obj → JSVal) (a : Obj)
    (hp : (getField a "promise").truthy = false) :
    actionFlow next a = ⟨[a], [], Outcome.value (next a)⟩ := by
  simp [actionFlow, hp]

/-- Flow branch with an actual promise in `promise` and an array in `types`. -/
theorem actionFlow_flow (next : Obj → JSVal) (a : Obj) (ok : Bool)
    (p : JSVal) (xs : List JSVal)
    (hp : getField a "promise" = JSVal.promise ok p)
    (ht : getField a "types" = JSVal.arr xs) :
    actionFlow next a =
      if ok then
        ⟨[requestAction a (xs.getD 0 JSVal.undef)],
         [successAction a (xs.getD 1 JSVal.undef) p],
         resolveOutcome (next (successAction a (xs.getD 1 JSVal.undef) p))⟩
      else
        ⟨[requestAction a (xs.getD 0 JSVal.undef)],
         [failureAction a (xs.getD 2 JSVal.undef) p],
         Outcome.promiseR p⟩ := by
  cases ok <;> simp [actionFlow, hp, ht, JSVal.truthy, destructure3]

/-- Truthy `promise` with no destructurable `types`: synchronous `TypeError`
before any dispatch. -/
theorem actionFlow_bad_types (next : Obj → JSVal) (a : Obj)
    (hp : (getField a "promise").truthy = true)
    (ht : destructure3 (getField a "types") = Except.error JSError.typeError) :
    actionFlow next a = ⟨[], [], Outcome.syncThrow JSError.typeError⟩ := by
  simp [actionFlow, hp, ht]

/-- With any truthy `promise` and an array `types`, the synchronous phase is
exactly one `next` call with the request action — whether `promise` is a real
promise (then `.then` is attached) or a truthy non-promise (then `.then`
raises, but only after the request dispatch on the previous line). -/
theorem actionFlow_truthy_sync (next : Obj → JSVal) (a : Obj) (xs : List JSVal)
    (hp : (getField a "promise").truthy = true)
    (ht : getField a "types" = JSVal.arr xs) :
    (actionFlow next a).syncDispatches = [requestAction a (xs.getD 0 JSVal.undef)] := by
  cases h : getField a "promise" with
  | undef => rw [h] at hp; cases hp
  | null => rw [h] at hp; cases hp
  | bool b => cases b
              · rw [h] at hp; cases hp
              · simp [actionFlow, h, ht, JSVal.truthy, destructure3]
  | num n => rw [h] at hp
             simp [JSVal.truthy] at hp
             simp [actionFlow, h, ht, JSVal.truthy, destructure3, hp]
  | str s => rw [h] at hp
             simp [JSVal.truthy] at hp
             simp [actionFlow, h, ht, JSVal.truthy, destructure3, hp]
  | arr ys => simp [actionFlow, h, ht, JSVal.truthy, destructure3]
  | obj fs => simp [actionFlow, h, ht, JSVal.truthy, destructure3]
  | promise ok p => cases ok <;> simp [actionFlow, h, ht, JSVal.truthy, destructure3]

/-- Promise resolution never raises synchronously. -/
theorem resolveOutcome_ne_syncThrow : ∀ (v : JSVal) (err : JSError),
    resolveOutcome v ≠ Outcome.syncThrow err
  | JSVal.undef, _ => by simp [resolveOutcome]
  | JSVal.null, _ => by simp [resolveOutcome]
  | JSVal.bool _, _ => by simp [resolveOutcome]
  | JSVal.num _, _ => by simp [resolveOutcome]
  | JSVal.str _, _ => by simp [resolveOutcome]
  | JSVal.arr _, _ => by simp [resolveOutcome]
  | JSVal.obj _, _ => by simp [resolveOutcome]
  | JSVal.promise true p, err => by
      simpa [resolveOutcome] using resolveOutcome_ne_syncThrow p err
  | JSVal.promise false _, _ => by simp [resolveOutcome]

/-! ### The claims -/

/-- C1 (counterexample). The claim says the synchronous dispatch carries all
fields of the original action except `promise` and `types`.  It fails when
the action itself carries a caller-defined `type` field: for `collideReq`,
whose own `type` field is `LOCAL`, the one synchronously dispatched action
is exactly `{type: REQ}` — the original `type: LOCAL` entry is not in it,
because `{ ...rest, type: REQUEST }` overwrites it. -/
theorem C1_counterexample :
    getField collideReq "type" = JSVal.str "LOCAL" ∧
    (actionFlow cNext collideReq).syncDispatches = [[("type", JSVal.str "REQ")]] ∧
    getField [("type", JSVal.str "REQ")] "type" ≠ getField collideReq "type" := by
  refine ⟨rfl, rfl, ?_⟩
  intro h
  have h2 : JSVal.str "REQ" = JSVal.str "LOCAL" := h
  injection h2 with h3
  exact absurd h3 (by decide)

/-- C1 (amended). For every action with a truthy `promise` field and
`types = [A, B, C]`, the middleware synchronously dispatches via `next`
exactly one action: it is tagged `type: A`, the `promise` and `types` keys
are stripped from it, and it carries every field of the original action
other than `promise`, `types` and `type` (a caller-defined `type` field is
overwritten by the tag `A`). -/
theorem C1_request_dispatch (next : Obj → JSVal) (a : Obj) (A B C : JSVal)
    (hp : (getField a "promise").truthy = true)
    (ht : getField a "types" = JSVal.arr [A, B, C]) :
    (actionFlow next a).syncDispatches = [requestAction a A] ∧
    getField (requestAction a A) "type" = A ∧
    hasField (requestAction a A) "promise" = false ∧
    hasField (requestAction a A) "types" = false ∧
    ∀ k, k ≠ "promise" → k ≠ "types" → k ≠ "type" →
      getField (requestAction a A) k = getField a k := by
  refine ⟨actionFlow_truthy_sync next a [A, B, C] hp ht, getField_setField_self .., ?_, ?_, ?_⟩
  · rw [requestAction, hasField_setField_ne _ _ _ _ (by decide)]
    exact hasField_restOf_eq_false _ _ (Or.inl rfl)
  · rw [requestAction, hasField_setField_ne _ _ _ _ (by decide)]
    exact hasField_restOf_eq_false _ _ (Or.inr rfl)
  · intro k h1 h2 h3
    rw [requestAction, getField_setField_ne _ _ _ _ (fun hc => h3 hc.symm)]
    exact getField_restOf a k h1 h2

/-- C1 witness: evaluated on `flowWithId` — truthy promise,
`types = [REQ,OK,ERR]` — the request action is the single synchronous
dispatch and keeps the caller field `id`. -/
theorem C1_request_dispatch_witness :
    (actionFlow cNext flowWithId).syncDispatches = [requestAction flowWithId (JSVal.str "REQ")] ∧
    getField (requestAction flowWithId (JSVal.str "REQ")) "id" = JSVal.num 5 :=
  ⟨(C1_request_dispatch cNext flowWithId (JSVal.str "REQ") (JSVal.str "OK")
      (JSVal.str "ERR") rfl rfl).1,
   ((C1_request_dispatch cNext flowWithId (JSVal.str "REQ") (JSVal.str "OK")
      (JSVal.str "ERR") rfl rfl).2.2.2.2 "id" (by decide) (by decide) (by decide)).trans rfl⟩

/-- C2. Any action whose `promise` field is absent takes the early return:
the very action object is forwarded to `next` (the only dispatch of the
whole run) and the middleware returns the host pipeline result `next action`. -/
theorem C2_passthrough (next : Obj → JSVal) (a : Obj)
    (h : hasField a "promise" = false) :
    actionFlow next a = ⟨[a], [], Outcome.value (next a)⟩ := by
  apply actionFlow_falsy
  rw [getField_eq_undef_of_not_hasField a _ h]
  rfl

/-- C2 witness: the plain action `{type: PING}` passes through unchanged. -/
theorem C2_passthrough_witness :
    actionFlow cNext [("type", JSVal.str "PING")] =
      ⟨[[("type", JSVal.str "PING")]], [], Outcome.value JSVal.undef⟩ :=
  C2_passthrough cNext [("type", JSVal.str "PING")] rfl

/-- C3. When the promise of a flow action with `types = [A, B, C]` fulfills
with `v`, the settlement dispatch is exactly the success action: tagged
`type: B`, carrying `value = v`, and carrying every remaining original field
(the spread `{ ...rest, value, type: SUCCESS }`). -/
theorem C3_success_dispatch (next : Obj → JSVal) (a : Obj) (A B C v : JSVal)
    (hp : getField a "promise" = JSVal.promise true v)
    (ht : getField a "types" = JSVal.arr [A, B, C]) :
    (actionFlow next a).asyncDispatches = [successAction a B v] ∧
    getField (successAction a B v) "type" = B ∧
    getField (successAction a B v) "value" = v ∧
    ∀ k, k ≠ "promise" → k ≠ "types" → k ≠ "type" → k ≠ "value" →
      getField (successAction a B v) k = getField a k := by
  have h := actionFlow_flow next a true v [A, B, C] hp ht
  refine ⟨by rw [h]; rfl, getField_setField_self .., ?_, ?_⟩
  · rw [successAction, getField_setField_ne _ _ _ _ (by decide)]
    exact getField_setField_self ..
  · intro k h1 h2 h3 h4
    rw [successAction, getField_setField_ne _ _ _ _ (fun hc => h3 hc.symm),
        getField_setField_ne _ _ _ _ (fun hc => h4 hc.symm)]
    exact getField_restOf a k h1 h2

/-- C3 witness: the example of the spec — dispatching
`{types: [FETCH_START,FETCH_OK,FETCH_ERR], promise: Promise.resolve(42)}`
yields `{type: FETCH_START}` synchronously and then `{value: 42, type: FETCH_OK}`. -/
theorem C3_success_dispatch_witness :
    (actionFlow cNext exampleOk).syncDispatches = [[("type", JSVal.str "FETCH_START")]] ∧
    (actionFlow cNext exampleOk).asyncDispatches =
      [[("value", JSVal.num 42), ("type", JSVal.str "FETCH_OK")]] :=
  ⟨rfl,
   ((C3_success_dispatch cNext exampleOk (JSVal.str "FETCH_START") (JSVal.str "FETCH_OK")
      (JSVal.str "FETCH_ERR") (JSVal.num 42) rfl rfl).1).trans rfl⟩

/-- C4. When the promise of a flow action with `types = [A, B, C]` rejects
with reason `e`, the settlement dispatch is the failure action — tagged
`type: C` and carrying `error = e` — and the promise the middleware returned
rejects with the very same reason `e` (the handler re-throws, so the
rejection is not swallowed). -/
theorem C4_failure_dispatch (next : Obj → JSVal) (a : Obj) (A B C e : JSVal)
    (hp : getField a "promise" = JSVal.promise false e)
    (ht : getField a "types" = JSVal.arr [A, B, C]) :
    (actionFlow next a).asyncDispatches = [failureAction a C e] ∧
    getField (failureAction a C e) "type" = C ∧
    getField (failureAction a C e) "error" = e ∧
    (actionFlow next a).outcome = Outcome.promiseR e := by
  have h := actionFlow_flow next a false e [A, B, C] hp ht
  refine ⟨by rw [h]; rfl, getField_setField_self .., ?_, by rw [h]; rfl⟩
  rw [failureAction, getField_setField_ne _ _ _ _ (by decide)]
  exact getField_setField_self ..

/-- C4 witness: the rejection example of the spec — with `Promise.reject(boom)`
the settlement dispatch is `{error: boom, type: FETCH_ERR}` and the
returned promise of the middleware rejects with `boom`. -/
theorem C4_failure_dispatch_witness :
    (actionFlow cNext exampleErr).asyncDispatches =
      [[("error", JSVal.str "boom"), ("type", JSVal.str "FETCH_ERR")]] ∧
    (actionFlow cNext exampleErr).outcome = Outcome.promiseR (JSVal.str "boom") :=
  ⟨((C4_failure_dispatch cNext exampleErr (JSVal.str "FETCH_START") (JSVal.str "FETCH_OK")
      (JSVal.str "FETCH_ERR") (JSVal.str "boom") rfl rfl).1).trans rfl,
   (C4_failure_dispatch cNext exampleErr (JSVal.str "FETCH_START") (JSVal.str "FETCH_OK")
      (JSVal.str "FETCH_ERR") (JSVal.str "boom") rfl rfl).2.2.2⟩

/-- C5. For every flow action, the settlement phase contains exactly one
dispatch — never zero, never two — and it is the success action (tagged `B`)
exactly when the promise fulfilled, the failure action (tagged `C`) exactly
when it rejected. -/
theorem C5_one_settlement_dispatch (next : Obj → JSVal) (a : Obj)
    (A B C : JSVal) (ok : Bool) (p : JSVal)
    (hp : getField a "promise" = JSVal.promise ok p)
    (ht : getField a "types" = JSVal.arr [A, B, C]) :
    (actionFlow next a).asyncDispatches.length = 1 ∧
    (ok = true →
      (actionFlow next a).asyncDispatches = [successAction a B p] ∧
      getField (successAction a B p) "type" = B) ∧
    (ok = false →
      (actionFlow next a).asyncDispatches = [failureAction a C p] ∧
      getField (failureAction a C p) "type" = C) := by
  have h := actionFlow_flow next a ok p [A, B, C] hp ht
  cases ok
  · exact ⟨by rw [h]; rfl, fun hc => Bool.noConfusion hc,
      fun _ => ⟨by rw [h]; rfl, getField_setField_self ..⟩⟩
  · exact ⟨by rw [h]; rfl, fun _ => ⟨by rw [h]; rfl, getField_setField_self ..⟩,
      fun hc => Bool.noConfusion hc⟩

/-- C5 witness: on the fulfillment example there is exactly one settlement
dispatch, the `FETCH_OK`-tagged success action. -/
theorem C5_one_settlement_dispatch_witness :
    (actionFlow cNext exampleOk).asyncDispatches.length = 1 ∧
    (actionFlow cNext exampleOk).asyncDispatches =
      [successAction exampleOk (JSVal.str "FETCH_OK") (JSVal.num 42)] :=
  ⟨(C5_one_settlement_dispatch cNext exampleOk (JSVal.str "FETCH_START")
      (JSVal.str "FETCH_OK") (JSVal.str "FETCH_ERR") true (JSVal.num 42) rfl rfl).1,
   ((C5_one_settlement_dispatch cNext exampleOk (JSVal.str "FETCH_START")
      (JSVal.str "FETCH_OK") (JSVal.str "FETCH_ERR") true (JSVal.num 42) rfl rfl).2.1 rfl).1⟩

/-- C6 (counterexample). The claim says every caller-defined field other than
`promise` and `types` is preserved identically in every derived dispatch.
It fails for a caller-defined `type` field: `collideType` carries
`type: KEEP`, yet its one synchronous dispatch is exactly `{type: Q}`,
whose `type` value differs from the original one. -/
theorem C6_counterexample :
    getField collideType "type" = JSVal.str "KEEP" ∧
    (actionFlow cNext collideType).syncDispatches = [[("type", JSVal.str "Q")]] ∧
    getField [("type", JSVal.str "Q")] "type" ≠ getField collideType "type" := by
  refine ⟨rfl, rfl, ?_⟩
  intro h
  have h2 : JSVal.str "Q" = JSVal.str "KEEP" := h
  injection h2 with h3
  exact absurd h3 (by decide)

/-- C6 (amended). For every flow action, every caller-defined field other
than `promise` and `types` is present with an identical value in every
derived dispatched action, except the reserved output fields: `type` is
overwritten in every derived action, `value` is overwritten in the SUCCESS
action, and `error` is overwritten in the FAILURE action. -/
theorem C6_rest_preserved (next : Obj → JSVal) (a : Obj) (A B C : JSVal)
    (ok : Bool) (p : JSVal) (k : String)
    (hp : getField a "promise" = JSVal.promise ok p)
    (ht : getField a "types" = JSVal.arr [A, B, C])
    (h1 : k ≠ "promise") (h2 : k ≠ "types") (h3 : k ≠ "type") :
    (∀ d ∈ (actionFlow next a).syncDispatches, getField d k = getField a k) ∧
    (ok = true → k ≠ "value" →
      ∀ d ∈ (actionFlow next a).asyncDispatches, getField d k = getField a k) ∧
    (ok = false → k ≠ "error" →
      ∀ d ∈ (actionFlow next a).asyncDispatches, getField d k = getField a k) := by
  have h := actionFlow_flow next a ok p [A, B, C] hp ht
  have hreq : getField (requestAction a A) k = getField a k := by
    rw [requestAction, getField_setField_ne _ _ _ _ (fun hc => h3 hc.symm)]
    exact getField_restOf a k h1 h2
  have hsucc : k ≠ "value" → getField (successAction a B p) k = getField a k := by
    intro h4
    rw [successAction, getField_setField_ne _ _ _ _ (fun hc => h3 hc.symm),
        getField_setField_ne _ _ _ _ (fun hc => h4 hc.symm)]
    exact getField_restOf a k h1 h2
  have hfail : k ≠ "error" → getField (failureAction a C p) k = getField a k := by
    intro h5
    rw [failureAction, getField_setField_ne _ _ _ _ (fun hc => h3 hc.symm),
        getField_setField_ne _ _ _ _ (fun hc => h5 hc.symm)]
    exact getField_restOf a k h1 h2
  cases ok
  · refine ⟨?_, fun hc => Bool.noConfusion hc, fun _ h5 => ?_⟩
    · rw [h]
      intro d hd
      rw [List.mem_singleton.mp hd]
      exact hreq
    · rw [h]
      intro d hd
      rw [List.mem_singleton.mp hd]
      exact hfail h5
  · refine ⟨?_, fun _ h4 => ?_, fun hc => Bool.noConfusion hc⟩
    · rw [h]
      intro d hd
      rw [List.mem_singleton.mp hd]
      exact hreq
    · rw [h]
      intro d hd
      rw [List.mem_singleton.mp hd]
      exact hsucc h4

/-- C6 witness: on `flowWithId` the caller field `id` is preserved in the
request action, the single synchronous dispatch. -/
theorem C6_rest_preserved_witness :
    getField (requestAction flowWithId (JSVal.str "REQ")) "id" =
      getField flowWithId "id" :=
  (C6_rest_preserved cNext flowWithId (JSVal.str "REQ") (JSVal.str "OK")
      (JSVal.str "ERR") true (JSVal.num 7) "id" rfl rfl (by decide) (by decide)
      (by decide)).1
    (requestAction flowWithId (JSVal.str "REQ")) (List.mem_singleton.mpr rfl)

/-- C7. With a truthy promise and a `types` array of fewer than three
elements, nothing is validated and nothing is raised: the run never throws,
the request dispatch is tagged with element 0 (or `undefined`), the
settlement dispatch with element 1 or 2 (or `undefined`) — and the FAILURE
slot, position 2, is necessarily the silent `undefined` tag here. -/
theorem C7_short_types (next : Obj → JSVal) (a : Obj) (ok : Bool) (p : JSVal)
    (xs : List JSVal)
    (hp : getField a "promise" = JSVal.promise ok p)
    (ht : getField a "types" = JSVal.arr xs)
    (hlen : xs.length < 3) :
    (∀ err, (actionFlow next a).outcome ≠ Outcome.syncThrow err) ∧
    (actionFlow next a).syncDispatches = [requestAction a (xs.getD 0 JSVal.undef)] ∧
    (ok = true → (actionFlow next a).asyncDispatches =
      [successAction a (xs.getD 1 JSVal.undef) p]) ∧
    (ok = false → (actionFlow next a).asyncDispatches =
      [failureAction a (xs.getD 2 JSVal.undef) p]) ∧
    xs.getD 2 JSVal.undef = JSVal.undef := by
  have h := actionFlow_flow next a ok p xs hp ht
  have h2 : xs.getD 2 JSVal.undef = JSVal.undef :=
    List.getD_eq_default _ _ (by omega)
  cases ok
  · refine ⟨?_, by rw [h]; rfl, fun hc => Bool.noConfusion hc, fun _ => by rw [h]; rfl, h2⟩
    intro err hc
    rw [h] at hc
    exact Outcome.noConfusion hc
  · refine ⟨?_, by rw [h]; rfl, fun _ => by rw [h]; rfl, fun hc => Bool.noConfusion hc, h2⟩
    intro err hc
    rw [h] at hc
    exact resolveOutcome_ne_syncThrow _ err hc

/-- C7 witness: `shortTypesAction` has `types = [ONLY]` and a fulfilling
promise — the run does not throw, the request dispatch is tagged `ONLY`,
and the success dispatch is silently tagged `undefined`. -/
theorem C7_short_types_witness :
    (actionFlow cNext shortTypesAction).syncDispatches = [[("type", JSVal.str "ONLY")]] ∧
    (actionFlow cNext shortTypesAction).asyncDispatches =
      [[("value", JSVal.num 8), ("type", JSVal.undef)]] ∧
    (actionFlow cNext shortTypesAction).outcome ≠ Outcome.syncThrow JSError.typeError :=
  ⟨((C7_short_types cNext shortTypesAction true (JSVal.num 8) [JSVal.str "ONLY"]
      rfl rfl (by decide)).2.1).trans rfl,
   ((C7_short_types cNext shortTypesAction true (JSVal.num 8) [JSVal.str "ONLY"]
      rfl rfl (by decide)).2.2.1 rfl).trans rfl,
   (C7_short_types cNext shortTypesAction true (JSVal.num 8) [JSVal.str "ONLY"]
      rfl rfl (by decide)).1 JSError.typeError⟩

/-- C8. An action whose `promise` field is present but falsy is treated as a
plain action: `if (!promise)` takes the early return, the original object —
the falsy `promise` entry still on it — is forwarded unchanged as the only
dispatch, and the middleware returns the host pipeline result for it. -/
theorem C8_falsy_promise (next : Obj → JSVal) (a : Obj)
    ( _hpres : hasField a "promise" = true)
    (hfalsy : (getField a "promise").truthy = false) :
    actionFlow next a = ⟨[a], [], Outcome.value (next a)⟩ :=
  actionFlow_falsy next a hfalsy

/-- C8 witness: `{promise: null, type: P}` passes through unchanged,
its `promise: null` entry included; no derived action is dispatched. -/
theorem C8_falsy_promise_witness :
    actionFlow cNext [("promise", JSVal.null), ("type", JSVal.str "P")] =
      ⟨[[("promise", JSVal.null), ("type", JSVal.str "P")]], [],
       Outcome.value JSVal.undef⟩ :=
  C8_falsy_promise cNext [("promise", JSVal.null), ("type", JSVal.str "P")] rfl rfl

/-- C9. When the promise of a flow action fulfills, the promise the
middleware returned is resolved with the return value of `next` applied to
the success action — in particular, whenever that return value is not itself
a promise, the returned promise fulfills with exactly `next successAction`,
not with the resolved value of the original promise. -/
theorem C9_resolves_with_next_result (next : Obj → JSVal) (a : Obj)
    (A B C v : JSVal)
    (hp : getField a "promise" = JSVal.promise true v)
    (ht : getField a "types" = JSVal.arr [A, B, C]) :
    (actionFlow next a).outcome = resolveOutcome (next (successAction a B v)) ∧
    ((next (successAction a B v)).isPromise = false →
      (actionFlow next a).outcome = Outcome.promiseF (next (successAction a B v))) := by
  have h := actionFlow_flow next a true v [A, B, C] hp ht
  refine ⟨by rw [h]; rfl, ?_⟩
  intro hnp
  rw [h]
  show resolveOutcome (next (successAction a B v)) = _
  cases hv : next (successAction a B v) <;> simp_all [JSVal.isPromise, resolveOutcome]

/-- C9 witness: on the fulfillment example under `next9`, the returned
promise fulfills with `HANDLED` — the result of `next` — and not with the
own resolved value of the promise `42`. -/
theorem C9_resolves_with_next_result_witness :
    (actionFlow next9 exampleOk).outcome = Outcome.promiseF (JSVal.str "HANDLED") ∧
    (actionFlow next9 exampleOk).outcome ≠ Outcome.promiseF (JSVal.num 42) := by
  have h := (C9_resolves_with_next_result next9 exampleOk (JSVal.str "FETCH_START")
    (JSVal.str "FETCH_OK") (JSVal.str "FETCH_ERR") (JSVal.num 42) rfl rfl).2 rfl
  refine ⟨h, ?_⟩
  rw [h]
  intro hc
  injection hc with hv
  injection hv

/-- C10. A truthy `promise` with no `types` field at all: the array
destructuring of `undefined` raises a `TypeError` synchronously, before the
request dispatch line runs, so the run contains no dispatch whatsoever. -/
theorem C10_missing_types (next : Obj → JSVal) (a : Obj)
    (hp : (getField a "promise").truthy = true)
    (ht : hasField a "types" = false) :
    actionFlow next a = ⟨[], [], Outcome.syncThrow JSError.typeError⟩ := by
  apply actionFlow_bad_types next a hp
  rw [getField_eq_undef_of_not_hasField a _ ht]
  rfl

/-- C10 witness: `{promise: Promise.resolve(1)}` with no `types` throws the
`TypeError` synchronously and dispatches nothing. -/
theorem C10_missing_types_witness :
    actionFlow cNext [("promise", JSVal.promise true (JSVal.num 1))] =
      ⟨[], [], Outcome.syncThrow JSError.typeError⟩ :=
  C10_missing_types cNext [("promise", JSVal.promise true (JSVal.num 1))] rfl rfl
